import Mathlib

/-!
Verification of the `apploc` CLI (file `src/cli.js`) against its
natural-language specification.

The JavaScript source is shallowly embedded:

* JS objects used as string-keyed maps are embedded as association lists
  (`List (String × α)`) with the JS property-assignment semantics:
  assignment to an existing key updates it in place (the key keeps its
  position), assignment to a fresh key appends it at the end.
* Filesystem paths are lists of path components below the root, so the
  absolute path `/a/b` is `["a", "b"]` and the root `/` is `[]`;
  `path.dirname` is `List.dropLast` (and the root is its own parent,
  as in POSIX `dirname("/") = "/"`).
* The external world of the `update` command (filesystem contents, the
  result of `JSON.parse` on the config file, the `axios.get` call, the
  `JSON.parse` of the remote data string, `JSON.stringify`) is a `World`
  record of outcomes; the control flow of `cli` is embedded exactly.
* `process.exitCode`, the message passed to `logError`, the localization
  file write, the "Nothing has changed" message, the usage printout and
  whether the HTTP request was issued are collected in a `CliResult`.
  Terminal styling (`chalk`) is dropped: `chalk.red`/`chalk.bold` are
  treated as the identity on the styled text.
-/

namespace Apploc

/-- The config file name, `const configFileName = 'apploc.config.json'`. -/
def configFileName : String := "apploc.config.json"

/-- A directory: the list of path components below the filesystem root. -/
abbrev Dir := List String

/-- Model of `path.dirname` on absolute paths: drop the last component; the root is
its own parent. -/
def parent (d : Dir) : Dir := d.dropLast

/-- Render a directory as the absolute path string `process.cwd()` returns. -/
def dirToString (d : Dir) : String := "/" ++ String.intercalate "/" d

/-- JS property read `m[k]` on an object embedded as an association list. -/
def getKey {α : Type} (m : List (String × α)) (k : String) : Option α :=
  match m with
  | [] => none
  | p :: rest => if p.1 = k then some p.2 else getKey rest k

/-- JS property assignment `m[k] = v`: update in place if the key exists
(keeping its position), otherwise append the new key at the end. -/
def setKey {α : Type} (m : List (String × α)) (k : String) (v : α) : List (String × α) :=
  match m with
  | [] => [(k, v)]
  | p :: rest => if p.1 = k then (k, v) :: rest else p :: setKey rest k v

/-- The locale-major output map `{[code]: {[key]: value}}`. -/
abbrev LocMap := List (String × List (String × String))

/-- Lookup `m[code][key]` in the locale-major map. -/
def getKey2 (m : LocMap) (code key : String) : Option String :=
  (getKey m code).bind (fun inner => getKey inner key)

/-- A remote localization entry `{code, value}`. -/
structure Localization where
  code : String
  value : String
deriving DecidableEq, Repr

/-- A remote key record `{key, localizations}`. -/
structure KeyRecord where
  key : String
  localizations : List Localization
deriving DecidableEq, Repr

/-- The parsed remote payload `{keys: [...]}`. -/
structure RemoteData where
  keys : List KeyRecord
deriving DecidableEq, Repr

/-- The body of the inner `forEach` of the update transform:
`if (localizations[code] == null) localizations[code] = {};
localizations[code][key.key] = localization.value;`
(`key` is the outer loop's key record, `l` the localization). -/
def transformStep (key : String) (acc : LocMap) (l : Localization) : LocMap :=
  let acc1 := if getKey acc l.code = none then setKey acc l.code [] else acc
  setKey acc1 l.code (setKey ((getKey acc1 l.code).getD []) key l.value)

/-- The update transform (`cli.js` lines 190-200): reshape the key-major
remote payload into the locale-major map, starting from `{}` and running
the two nested `forEach` loops left to right. -/
def transform (rd : RemoteData) : LocMap :=
  rd.keys.foldl (fun acc kr => kr.localizations.foldl (transformStep kr.key) acc) []

/-- Modelled from the spec: "for each key record, for each localization,
insert into `output[code][key] = value`, creating the inner map on first
sight of a code" — the single conceptual insertion. -/
def specInsert (out : LocMap) (code key value : String) : LocMap :=
  let inner := match getKey out code with
    | none => []
    | some m => m
  setKey out code (setKey inner key value)

/-- Modelled from the spec: the whole transform as iterated `specInsert`
over key records and their localizations. -/
def transformSpec (rd : RemoteData) : LocMap :=
  rd.keys.foldl
    (fun acc kr => kr.localizations.foldl
      (fun acc l => specInsert acc l.code kr.key l.value) acc) []

/-- The locator `findConfig` (`cli.js` lines 75-95): walk from `startDir` upward; at
each directory test whether `join(dir, configFileName)` exists; stop when
a directory equals its own parent (the root); return the config file path
or `null`. The filesystem is the predicate `ex` on full paths. -/
def findConfig (ex : List String → Bool) (startDir : Dir) : Option (List String) :=
  if ex (startDir ++ [configFileName]) then some (startDir ++ [configFileName])
  else if _h : startDir = parent startDir then none
  else findConfig ex (parent startDir)
termination_by startDir.length
decreasing_by
  cases startDir with
  | nil => exact absurd rfl _h
  | cons x xs => simp [parent, List.length_dropLast]

/-- The chain of directories the `findConfig` loop visits, from the start
down to the root. -/
def ancestors : Dir → List Dir
  | [] => [[]]
  | x :: xs => (x :: xs) :: ancestors (parent (x :: xs))
termination_by d => d.length
decreasing_by
  simp [parent, List.length_dropLast]

/-- The `findConfig` loop with an explicit iteration budget; `none` means
the budget ran out before the loop finished. -/
def findConfigFuel (ex : List String → Bool) : Nat → Dir → Option (Option (List String))
  | 0, _ => none
  | fuel + 1, d =>
    if ex (d ++ [configFileName]) then some (some (d ++ [configFileName]))
    else if d = parent d then some none
    else findConfigFuel ex fuel (parent d)

/-- The project config `{id, secret, path}`. -/
structure Config where
  id : String
  secret : String
  path : String
deriving DecidableEq, Repr

/-- The remote JSON envelope `{ok, data, message}`. -/
structure Envelope where
  ok : Bool
  data : String
  message : String
deriving DecidableEq, Repr

/-- Model of `logError` (`cli.js` lines 97-99): the string printed to standard
error, with the fixed prefix and continuation-line indentation
(`chalk.red` styling dropped). -/
def logErrorOutput (m : String) : String :=
  "error: " ++ String.intercalate "\n       " (m.splitOn "\n")

/-- The message `update` logs when no config file is found
(`cli.js` lines 152-159, `chalk.bold` dropped). -/
def missingConfigMsg (workingDirectory : String) : String :=
  "unable to find " ++ configFileName ++ " in " ++ workingDirectory ++
    " or any of its parents\ninitialize your project by executing " ++ "apploc init"

/-- The writer's condition (`cli.js` line 208):
`!existsSync(localizationPath) || readFile(localizationPath) != newJson`.
`existing` is the localization file's content when the file exists. -/
def shouldWrite (existing : Option String) (newJson : String) : Bool :=
  match existing with
  | none => true
  | some old => old != newJson

/-- Outcomes of the external effects the `update` command performs, in
program order: the filesystem (`existsSync` on full paths), the parse of
the config file, the `axios.get` call keyed by id and secret (`Except` is
a transport/HTTP failure), the parse of the remote `data` string,
`JSON.stringify` on the output map, and the localization file's current
content (if the file exists). -/
structure World where
  cwd : Dir
  fsExists : List String → Bool
  configParse : Except String Config
  httpGet : String → String → Except String Envelope
  dataParse : String → Except String RemoteData
  stringify : LocMap → String
  existingLoc : Option String

/-- Observable outcome of one `cli` run: `process.exitCode` (0 when never
set), the `logError` output (if any), the content written to the
localization file (if written), whether the "Nothing has changed" message
was printed, whether usage was printed, and whether the HTTP request was
issued. -/
structure CliResult where
  exitCode : Nat
  stderr : Option String
  locWritten : Option String
  printedUnchanged : Bool
  usagePrinted : Bool
  fetched : Bool
deriving DecidableEq, Repr

/-- The `update` command's `try`/`catch` body (`cli.js` lines 164-225),
run after a config file was found: parse config, fetch, check the
envelope, parse the remote data, transform, compare and write. Every
failure is caught by the single `catch`, logged, and sets exit code 1. -/
def runUpdate (w : World) : CliResult :=
  match w.configParse with
  | .error e => ⟨1, some (logErrorOutput e), none, false, false, false⟩
  | .ok config =>
    match w.httpGet config.id config.secret with
    | .error e => ⟨1, some (logErrorOutput e), none, false, false, true⟩
    | .ok response =>
      if !response.ok then
        ⟨1, some (logErrorOutput response.message), none, false, false, true⟩
      else
        match w.dataParse response.data with
        | .error e => ⟨1, some (logErrorOutput e), none, false, false, true⟩
        | .ok rd =>
          let newJson := w.stringify (transform rd)
          if shouldWrite w.existingLoc newJson then
            ⟨0, none, some newJson, false, false, true⟩
          else
            ⟨0, none, none, true, false, true⟩

/-- The first error the update path hits, in program order, or `none`
when the whole path succeeds (a characterization used to state claims;
`runUpdate` itself is the embedding of the source). -/
def updateError (w : World) : Option String :=
  match w.configParse with
  | .error e => some e
  | .ok config =>
    match w.httpGet config.id config.secret with
    | .error e => some e
    | .ok response =>
      if !response.ok then some response.message
      else
        match w.dataParse response.data with
        | .error e => some e
        | .ok _ => none

/-- The `cli` entry point (`cli.js` lines 109-231) as a function of the
world and the parsed command. `none` stands for a JS-falsy command (absent
or the empty string, both of which fail the `!options.command` test); the
empty string is also mapped to the usage branch for faithfulness. The
`init` branch is interactive and never sets `process.exitCode`; it is
modelled as a plain success that touches neither the localization file nor
the network. -/
def cliRun (w : World) (command : Option String) : CliResult :=
  match command with
  | none => ⟨1, none, none, false, true, false⟩
  | some c =>
    if c = "" then ⟨1, none, none, false, true, false⟩
    else if c = "help" then ⟨0, none, none, false, true, false⟩
    else if c = "init" then ⟨0, none, none, false, false, false⟩
    else if c = "update" then
      match findConfig w.fsExists w.cwd with
      | none =>
        ⟨1, some (logErrorOutput (missingConfigMsg (dirToString w.cwd))),
          none, false, false, false⟩
      | some _ => runUpdate w
    else ⟨1, some (logErrorOutput ("unknown command: " ++ c)), none, false, false, false⟩

/-- The remote payload flattened into the sequence of
`(code, key, value)` insertions the transform performs, in order. -/
def triples (rd : RemoteData) : List (String × String × String) :=
  rd.keys.flatMap fun kr => kr.localizations.map fun l => (l.code, kr.key, l.value)

/-- The value of the last `(code, key)` entry in a flattened insertion
sequence, if any. -/
def lastVal (ts : List (String × String × String)) (code key : String) : Option String :=
  ts.foldl (fun r t => if t.1 = code ∧ t.2.1 = key then some t.2.2 else r) none

/-- A concrete world for exercising the successful update path: the config
is found at the root, the fetch succeeds, the payload has one key with one
localization, serialization yields `"J"`, and no localization file exists
yet. -/
def envC2 : World :=
  { cwd := [], fsExists := fun _ => true,
    configParse := .ok ⟨"id", "secret", "loc.json"⟩,
    httpGet := fun _ _ => .ok ⟨true, "payload", ""⟩,
    dataParse := fun _ => .ok ⟨[⟨"hello", [⟨"en", "Hi"⟩]⟩]⟩,
    stringify := fun _ => "J",
    existingLoc := none }

/-- A concrete world whose remote envelope is `{ok:false, message:"bad
secret"}`. -/
def envC4 : World :=
  { cwd := [], fsExists := fun _ => true,
    configParse := .ok ⟨"id", "secret", "loc.json"⟩,
    httpGet := fun _ _ => .ok ⟨false, "", "bad secret"⟩,
    dataParse := fun _ => .error "unused",
    stringify := fun _ => "",
    existingLoc := none }

/-- A trivial concrete world (everything fails). -/
def envC5 : World :=
  { cwd := [], fsExists := fun _ => false,
    configParse := .error "e",
    httpGet := fun _ _ => .error "e",
    dataParse := fun _ => .error "e",
    stringify := fun _ => "",
    existingLoc := none }

/-- A concrete world with no config file anywhere. -/
def envC6 : World :=
  { cwd := ["home"], fsExists := fun _ => false,
    configParse := .error "e",
    httpGet := fun _ _ => .error "e",
    dataParse := fun _ => .error "e",
    stringify := fun _ => "",
    existingLoc := none }

/-- A concrete world whose config file is found but fails to parse. -/
def envC10 : World :=
  { cwd := [], fsExists := fun _ => true,
    configParse := .error "boom",
    httpGet := fun _ _ => .error "e",
    dataParse := fun _ => .error "e",
    stringify := fun _ => "",
    existingLoc := some "old" }

theorem getKey_setKey_self {α : Type} (m : List (String × α)) (k : String) (v : α) :
    getKey (setKey m k v) k = some v := by
  induction m with
  | nil => simp [setKey, getKey]
  | cons p rest ih =>
    by_cases h : p.1 = k
    · simp [setKey, getKey, h]
    · simp [setKey, getKey, h, ih]

theorem getKey_setKey_ne {α : Type} (m : List (String × α)) (k k' : String) (v : α)
    (h : k' ≠ k) : getKey (setKey m k v) k' = getKey m k' := by
  induction m with
  | nil => simp [setKey, getKey, Ne.symm h]
  | cons p rest ih =>
    by_cases hp : p.1 = k
    · simp [setKey, getKey, hp, Ne.symm h]
    · simp [setKey, getKey, hp, ih]

theorem setKey_setKey_self {α : Type} (m : List (String × α)) (k : String) (v w : α) :
    setKey (setKey m k v) k w = setKey m k w := by
  induction m with
  | nil => simp [setKey]
  | cons p rest ih =>
    by_cases h : p.1 = k
    · simp [setKey, h]
    · simp [setKey, h, ih]

theorem transformStep_eq (key : String) (acc : LocMap) (l : Localization) :
    transformStep key acc l = specInsert acc l.code key l.value := by
  unfold transformStep specInsert
  cases h : getKey acc l.code with
  | none =>
    simp [h, getKey_setKey_self, setKey_setKey_self]
  | some inner =>
    simp [h]

/-- The code's transform agrees with the spec's iterated insertion. -/
theorem transform_eq_transformSpec (rd : RemoteData) :
    transform rd = transformSpec rd := by
  have hfun : (fun (acc : LocMap) (kr : KeyRecord) =>
        kr.localizations.foldl (transformStep kr.key) acc)
      = fun acc kr => kr.localizations.foldl
          (fun acc l => specInsert acc l.code kr.key l.value) acc := by
    funext acc kr
    have h2 : transformStep kr.key = fun a l => specInsert a l.code kr.key l.value :=
      funext fun a => funext fun l => transformStep_eq kr.key a l
    rw [h2]
  rw [transform, transformSpec, hfun]

theorem foldl_specInsert_flatMap (keys : List KeyRecord) (acc : LocMap) :
    keys.foldl
      (fun acc kr => kr.localizations.foldl
        (fun acc l => specInsert acc l.code kr.key l.value) acc) acc
    = (keys.flatMap fun kr => kr.localizations.map
        fun l => (l.code, kr.key, l.value)).foldl
        (fun acc t => specInsert acc t.1 t.2.1 t.2.2) acc := by
  induction keys generalizing acc with
  | nil => rfl
  | cons kr rest ih =>
    simp only [List.foldl_cons, List.flatMap_cons, List.foldl_append,
      List.foldl_map]
    exact ih _

/-- The transform is the left fold of `specInsert` over the flattened
insertion sequence. -/
theorem transform_eq_triples (rd : RemoteData) :
    transform rd
    = (triples rd).foldl (fun acc t => specInsert acc t.1 t.2.1 t.2.2) [] := by
  rw [transform_eq_transformSpec]
  unfold transformSpec triples
  exact foldl_specInsert_flatMap rd.keys []

theorem getKey2_specInsert (m : LocMap) (code key v c k : String) :
    getKey2 (specInsert m code key v) c k
    = if code = c ∧ key = k then some v else getKey2 m c k := by
  unfold specInsert getKey2
  by_cases hc : code = c
  · subst hc
    rw [getKey_setKey_self]
    by_cases hk : key = k
    · subst hk
      simp [getKey_setKey_self]
    · rw [if_neg (by simp [hk])]
      simp only [Option.some_bind]
      rw [getKey_setKey_ne _ _ _ _ (fun h => hk h.symm)]
      cases h : getKey m code with
      | none => simp [getKey]
      | some inner => simp
  · rw [if_neg (by simp [hc])]
    rw [getKey_setKey_ne _ _ _ _ (fun h => hc h.symm)]

theorem getKey2_foldl_specInsert (ts : List (String × String × String))
    (acc : LocMap) (c k : String) :
    getKey2 (ts.foldl (fun a t => specInsert a t.1 t.2.1 t.2.2) acc) c k
    = ts.foldl (fun r t => if t.1 = c ∧ t.2.1 = k then some t.2.2 else r)
        (getKey2 acc c k) := by
  induction ts generalizing acc with
  | nil => rfl
  | cons t rest ih =>
    simp only [List.foldl_cons]
    rw [ih, getKey2_specInsert]

/-- Lookup in the transform's result is the last value inserted at that
`(code, key)` pair. -/
theorem getKey2_transform (rd : RemoteData) (c k : String) :
    getKey2 (transform rd) c k = lastVal (triples rd) c k := by
  rw [transform_eq_triples, getKey2_foldl_specInsert]
  rfl

theorem eq_parent_iff (d : Dir) : d = parent d ↔ d = [] := by
  constructor
  · intro h
    cases d with
    | nil => rfl
    | cons x xs =>
      have hlen := congrArg List.length h
      simp [parent, List.length_dropLast] at hlen
  · intro h
    subst h
    rfl

theorem ancestors_cons (d : Dir) : ∃ rest, ancestors d = d :: rest := by
  cases d with
  | nil => exact ⟨[], by rw [ancestors]⟩
  | cons x xs => exact ⟨ancestors (parent (x :: xs)), by rw [ancestors]⟩

/-- The result of `findConfig` is the first directory of the upward walk whose config
path exists, joined with the config file name. -/
theorem findConfig_eq_find (ex : List String → Bool) (d : Dir) :
    findConfig ex d
    = ((ancestors d).find? fun a => ex (a ++ [configFileName])).map
        (fun a => a ++ [configFileName]) := by
  induction d using findConfig.induct ex with
  | case1 x hex =>
    obtain ⟨rest, hr⟩ := ancestors_cons x
    rw [findConfig, if_pos hex, hr]
    simp [List.find?, hex]
  | case2 x hex hroot =>
    have hx : x = [] := (eq_parent_iff x).mp hroot
    subst hx
    have hex' : ex [configFileName] = false := by simpa using hex
    rw [findConfig]
    simp [ancestors, parent, List.find?, hex']
  | case3 x hex hroot ih =>
    cases x with
    | nil => exact absurd ((eq_parent_iff []).mpr rfl) hroot
    | cons y ys =>
      rw [findConfig, if_neg hex, dif_neg hroot, ancestors,
        List.find?_cons_of_neg _ (by simpa using hex), ih]

/-- The fuelled walk finishes within `d.length + 1` iterations, with
`findConfig`'s result. -/
theorem findConfigFuel_length (ex : List String → Bool) (d : Dir) :
    findConfigFuel ex (d.length + 1) d = some (findConfig ex d) := by
  induction d using findConfig.induct ex with
  | case1 x hex =>
    rw [findConfig, if_pos hex]
    simp [findConfigFuel, hex]
  | case2 x hex hroot =>
    rw [findConfig, if_neg hex, dif_pos hroot]
    simp [findConfigFuel, hex, ← hroot]
  | case3 x hex hroot ih =>
    cases x with
    | nil => exact absurd ((eq_parent_iff []).mpr rfl) hroot
    | cons y ys =>
      rw [findConfig, if_neg hex, dif_neg hroot]
      have h1 : ((y :: ys : Dir).length + 1)
          = ((parent (y :: ys)).length + 1) + 1 := by
        simp [parent, List.length_dropLast]
      rw [h1, findConfigFuel.eq_2, if_neg hex, if_neg hroot]
      exact ih

theorem root_mem_ancestors (d : Dir) : [] ∈ ancestors d := by
  induction d using ancestors.induct with
  | case1 => rw [ancestors]; exact List.mem_singleton.mpr rfl
  | case2 x xs ih => rw [ancestors]; exact List.mem_cons_of_mem _ ih

/-- C1: for every parsed remote payload, the transform produces exactly
the locale-major map described by the spec — for each key record and each
of its localizations, `output[code][key] = value` is inserted, the inner
map being created on first sight of a code (`transformSpec`) — and on the
spec's example input `{keys:[{key:"hello",localizations:[{code:"en",
value:"Hi"},{code:"fr",value:"Salut"}]}]}` it yields
`{"en":{"hello":"Hi"},"fr":{"hello":"Salut"}}`. -/
theorem c1_transform_locale_major :
    (∀ rd : RemoteData, transform rd = transformSpec rd)
    ∧ transform ⟨[⟨"hello", [⟨"en", "Hi"⟩, ⟨"fr", "Salut"⟩]⟩]⟩
      = [("en", [("hello", "Hi")]), ("fr", [("hello", "Salut")])] :=
  ⟨transform_eq_transformSpec, by decide⟩

/-- C3: for every filesystem and starting directory, the config locator
returns the nearest ancestor (the starting directory included) containing
`apploc.config.json` — as the joined config file path, the first hit of
the upward walk — the walk's chain reaches the filesystem root, and when
no ancestor up to and including the root contains the file the result is
`none`, not an exception. -/
theorem c3_findConfig_nearest (ex : List String → Bool) (d : Dir) :
    (findConfig ex d
      = ((ancestors d).find? fun a => ex (a ++ [configFileName])).map
          (fun a => a ++ [configFileName]))
    ∧ [] ∈ ancestors d
    ∧ ((∀ a ∈ ancestors d, ex (a ++ [configFileName]) = false) →
        findConfig ex d = none) := by
  refine ⟨findConfig_eq_find ex d, root_mem_ancestors d, fun hall => ?_⟩
  rw [findConfig_eq_find]
  have hnone : (ancestors d).find? (fun a => ex (a ++ [configFileName])) = none :=
    List.find?_eq_none.mpr fun a ha => by simp [hall a ha]
  rw [hnone]
  rfl

/-- The C3 theorem applied to a concrete two-level directory with an empty
filesystem: the locator reports "not found". -/
theorem c3_findConfig_nearest_witness :
    findConfig (fun _ => false) ["a", "b"] = none :=
  (c3_findConfig_nearest (fun _ => false) ["a", "b"]).2.2 (by simp)

/-- C7: for every input keys list (duplicate `(key, code)` pairs
included), the transform's result at a locale code and key is the value
of the last such pair in iteration order — last-write-wins. -/
theorem c7_duplicate_last_write_wins (rd : RemoteData) (c k : String) :
    getKey2 (transform rd) c k = lastVal (triples rd) c k :=
  getKey2_transform rd c k

/-- C8: the transform is deterministic — its output map is a function of
the input value alone (indeed of the flattened insertion sequence), so two
runs on the same input keys list always yield the same output map as a
value, independently of how the records group the insertions. -/
theorem c8_transform_deterministic (rd1 rd2 : RemoteData)
    (h : triples rd1 = triples rd2) : transform rd1 = transform rd2 := by
  rw [transform_eq_triples, transform_eq_triples, h]

/-- The C8 theorem applied to two concretely different payloads with the
same insertion sequence. -/
theorem c8_transform_deterministic_witness :
    transform ⟨[⟨"k", [⟨"en", "a"⟩, ⟨"fr", "b"⟩]⟩]⟩
      = transform ⟨[⟨"k", [⟨"en", "a"⟩]⟩, ⟨"k", [⟨"fr", "b"⟩]⟩]⟩ :=
  c8_transform_deterministic _ _ (by decide)

/-- C9: the config locator's upward walk terminates: each step moves to
the parent directory, so a budget of `d.length + 1` iterations always
suffices for the fuelled loop to finish with `findConfig`'s result, and
at the filesystem root a directory's parent equals itself. -/
theorem c9_walk_terminates (ex : List String → Bool) (d : Dir) :
    findConfigFuel ex (d.length + 1) d = some (findConfig ex d)
    ∧ parent [] = [] :=
  ⟨findConfigFuel_length ex d, rfl⟩

theorem shouldWrite_iff (existing : Option String) (newJson : String) :
    shouldWrite existing newJson = true ↔ existing ≠ some newJson := by
  cases existing with
  | none => simp [shouldWrite]
  | some old => simp [shouldWrite, bne_iff_ne]

theorem cliRun_update_found (w : World) (p : List String)
    (hf : findConfig w.fsExists w.cwd = some p) :
    cliRun w (some "update") = runUpdate w := by
  have h0 : cliRun w (some "update")
      = match findConfig w.fsExists w.cwd with
        | none =>
          ⟨1, some (logErrorOutput (missingConfigMsg (dirToString w.cwd))),
            none, false, false, false⟩
        | some _ => runUpdate w := rfl
  rw [h0, hf]

theorem cliRun_update_missing (w : World)
    (hf : findConfig w.fsExists w.cwd = none) :
    cliRun w (some "update")
      = ⟨1, some (logErrorOutput (missingConfigMsg (dirToString w.cwd))),
          none, false, false, false⟩ := by
  have h0 : cliRun w (some "update")
      = match findConfig w.fsExists w.cwd with
        | none =>
          ⟨1, some (logErrorOutput (missingConfigMsg (dirToString w.cwd))),
            none, false, false, false⟩
        | some _ => runUpdate w := rfl
  rw [h0, hf]

theorem runUpdate_error (w : World) (e : String)
    (h : updateError w = some e) :
    (runUpdate w).locWritten = none
    ∧ (runUpdate w).exitCode = 1
    ∧ (runUpdate w).stderr = some (logErrorOutput e) := by
  cases hc : w.configParse with
  | error e' =>
    simp only [updateError, hc, Option.some.injEq] at h
    subst h
    simp [runUpdate, hc]
  | ok config =>
    cases hg : w.httpGet config.id config.secret with
    | error e' =>
      simp only [updateError, hc, hg, Option.some.injEq] at h
      subst h
      simp [runUpdate, hc, hg]
    | ok response =>
      by_cases hok : response.ok
      · cases hd : w.dataParse response.data with
        | error e' =>
          simp only [updateError, hc, hg, hok, hd, Bool.not_true,
            Bool.false_eq_true, if_false, Option.some.injEq] at h
          subst h
          simp [runUpdate, hc, hg, hok, hd]
        | ok rd =>
          simp [updateError, hc, hg, hok, hd] at h
      · rw [Bool.not_eq_true] at hok
        simp only [updateError, hc, hg, hok, Bool.not_false, if_true,
          Option.some.injEq] at h
        subst h
        simp [runUpdate, hc, hg, hok]

theorem runUpdate_success (w : World) (config : Config)
    (response : Envelope) (rd : RemoteData)
    (hc : w.configParse = .ok config)
    (hg : w.httpGet config.id config.secret = .ok response)
    (hok : response.ok = true)
    (hd : w.dataParse response.data = .ok rd) :
    runUpdate w
      = if shouldWrite w.existingLoc (w.stringify (transform rd))
        then ⟨0, none, some (w.stringify (transform rd)), false, false, true⟩
        else ⟨0, none, none, true, false, true⟩ := by
  simp only [runUpdate, hc, hg, hok, hd, Bool.not_true, Bool.false_eq_true,
    if_false]

theorem runUpdate_exit (w : World) :
    ((runUpdate w).exitCode = 1 ↔ updateError w ≠ none)
    ∧ ((runUpdate w).exitCode = 0 ∨ (runUpdate w).exitCode = 1) := by
  cases hc : w.configParse with
  | error e => simp [runUpdate, updateError, hc]
  | ok config =>
    cases hg : w.httpGet config.id config.secret with
    | error e => simp [runUpdate, updateError, hc, hg]
    | ok response =>
      by_cases hok : response.ok
      · cases hd : w.dataParse response.data with
        | error e => simp [runUpdate, updateError, hc, hg, hok, hd]
        | ok rd =>
          by_cases hs : shouldWrite w.existingLoc (w.stringify (transform rd))
            <;> simp [runUpdate, updateError, hc, hg, hok, hd, hs]
      · rw [Bool.not_eq_true] at hok
        simp [runUpdate, updateError, hc, hg, hok]

theorem runUpdate_stderr (w : World) (m : String)
    (h : (runUpdate w).stderr = some m) : ∃ s, m = "error: " ++ s := by
  cases hc : w.configParse with
  | error e =>
    simp only [runUpdate, hc, Option.some.injEq] at h
    exact ⟨_, h.symm⟩
  | ok config =>
    cases hg : w.httpGet config.id config.secret with
    | error e =>
      simp only [runUpdate, hc, hg, Option.some.injEq] at h
      exact ⟨_, h.symm⟩
    | ok response =>
      by_cases hok : response.ok
      · cases hd : w.dataParse response.data with
        | error e =>
          simp only [runUpdate, hc, hg, hok, hd, Bool.not_true,
            Bool.false_eq_true, if_false, Option.some.injEq] at h
          exact ⟨_, h.symm⟩
        | ok rd =>
          by_cases hs : shouldWrite w.existingLoc (w.stringify (transform rd))
            <;> simp [runUpdate, hc, hg, hok, hd, hs] at h
      · rw [Bool.not_eq_true] at hok
        simp only [runUpdate, hc, hg, hok, Bool.not_false, if_true,
          Option.some.injEq] at h
        exact ⟨_, h.symm⟩

theorem logErrorOutput_shape (m : String) :
    ∃ s, logErrorOutput m = "error: " ++ s :=
  ⟨_, rfl⟩

/-- C2: on a successful update path, the writer writes the localization
file iff the new serialized content differs from the existing file
content (file absence counting as different), never rewrites on equal
content — reporting "unchanged" exactly then — and the run succeeds. -/
theorem c2_writer_iff (w : World) (config : Config) (response : Envelope)
    (rd : RemoteData) (p : List String)
    (hf : findConfig w.fsExists w.cwd = some p)
    (hc : w.configParse = .ok config)
    (hg : w.httpGet config.id config.secret = .ok response)
    (hok : response.ok = true)
    (hd : w.dataParse response.data = .ok rd) :
    ((cliRun w (some "update")).locWritten
        = if w.existingLoc = some (w.stringify (transform rd)) then none
          else some (w.stringify (transform rd)))
    ∧ ((cliRun w (some "update")).printedUnchanged = true
        ↔ w.existingLoc = some (w.stringify (transform rd)))
    ∧ (cliRun w (some "update")).exitCode = 0 := by
  rw [cliRun_update_found w p hf,
    runUpdate_success w config response rd hc hg hok hd]
  by_cases he : w.existingLoc = some (w.stringify (transform rd))
  · have hs : shouldWrite w.existingLoc (w.stringify (transform rd)) = false :=
      Bool.eq_false_iff.mpr fun ht => (shouldWrite_iff _ _).mp ht he
    simp only [hs]
    simp [he]
  · have hs : shouldWrite w.existingLoc (w.stringify (transform rd)) = true :=
      (shouldWrite_iff _ _).mpr he
    simp [hs, he]

/-- The C2 theorem applied to a concrete successful run with no existing
localization file: file absence counts as different, so the file is
written and "unchanged" is not reported. -/
theorem c2_writer_iff_witness :
    (cliRun envC2 (some "update")).locWritten = some "J"
    ∧ (cliRun envC2 (some "update")).printedUnchanged = false := by
  have h := c2_writer_iff envC2 ⟨"id", "secret", "loc.json"⟩
    ⟨true, "payload", ""⟩ ⟨[⟨"hello", [⟨"en", "Hi"⟩]⟩]⟩ [configFileName]
    (by rw [findConfig]; simp [envC2]) rfl rfl rfl rfl
  constructor
  · have h1 := h.1
    simpa [envC2] using h1
  · have h2 := h.2.1
    simpa [envC2] using h2

/-- C4: whenever the update path reaches a remote envelope with
`ok == false`, the command logs exactly the server-supplied message (the
thrown `response.message`) with the fixed error prefix, writes nothing,
and exits with code 1. -/
theorem c4_envelope_rejected (w : World) (config : Config)
    (response : Envelope) (p : List String)
    (hf : findConfig w.fsExists w.cwd = some p)
    (hc : w.configParse = .ok config)
    (hg : w.httpGet config.id config.secret = .ok response)
    (hok : response.ok = false) :
    cliRun w (some "update")
      = ⟨1, some (logErrorOutput response.message), none, false, false, true⟩ := by
  rw [cliRun_update_found w p hf]
  simp only [runUpdate, hc, hg, hok, Bool.not_false, if_true]

/-- The C4 theorem applied to the concrete envelope
`{ok:false, message:"bad secret"}`: update exits 1 and logs
"bad secret". -/
theorem c4_envelope_rejected_witness :
    cliRun envC4 (some "update")
      = ⟨1, some (logErrorOutput "bad secret"), none, false, false, true⟩ :=
  c4_envelope_rejected envC4 ⟨"id", "secret", "loc.json"⟩
    ⟨false, "", "bad secret"⟩ [configFileName]
    (by rw [findConfig]; simp [envC4]) rfl rfl rfl

/-- C5: the exit code is 0 or 1, and it is 1 exactly when no command is
given (or the JS-falsy empty command), the command is unknown, or the
command is `update` and either no config file is found or some step of
the update path fails; everything printed to standard error carries the
fixed `error: ` prefix. -/
theorem c5_exit_codes (w : World) (cmd : Option String) :
    ((cliRun w cmd).exitCode = 1
      ↔ (cmd = none ∨ cmd = some ""
          ∨ (∃ c, cmd = some c ∧ c ≠ "" ∧ c ≠ "help" ∧ c ≠ "init"
              ∧ c ≠ "update")
          ∨ (cmd = some "update"
              ∧ (findConfig w.fsExists w.cwd = none ∨ updateError w ≠ none))))
    ∧ ((cliRun w cmd).exitCode = 0 ∨ (cliRun w cmd).exitCode = 1)
    ∧ (∀ m, (cliRun w cmd).stderr = some m → ∃ s, m = "error: " ++ s) := by
  cases cmd with
  | none => simp [cliRun]
  | some c =>
    by_cases h0 : c = ""
    · subst h0
      simp [cliRun]
    · by_cases h1 : c = "help"
      · subst h1
        simp [cliRun]
      · by_cases h2 : c = "init"
        · subst h2
          simp [cliRun]
        · by_cases h3 : c = "update"
          · subst h3
            cases hf : findConfig w.fsExists w.cwd with
            | none =>
              rw [cliRun_update_missing w hf]
              refine ⟨by simp [hf], by simp, fun m hm => ?_⟩
              simp only [Option.some.injEq] at hm
              exact hm ▸ logErrorOutput_shape _
            | some p =>
              rw [cliRun_update_found w p hf]
              have hexit := runUpdate_exit w
              refine ⟨?_, hexit.2, fun m hm => runUpdate_stderr w m hm⟩
              rw [hexit.1]
              simp [hf]
          · refine ⟨?_, ?_, fun m hm => ?_⟩
            · simp only [cliRun, h0, h1, h2, h3, if_false]
              simp [h0, h1, h2, h3]
            · simp [cliRun, h0, h1, h2, h3]
            · simp only [cliRun, h0, h1, h2, h3, if_false,
                Option.some.injEq] at hm
              exact hm ▸ logErrorOutput_shape _

/-- The C5 theorem applied to a run with no command: exit code 1. -/
theorem c5_exit_codes_witness : (cliRun envC5 none).exitCode = 1 :=
  (c5_exit_codes envC5 none).1.mpr (Or.inl rfl)

/-- C6: when no ancestor directory contains the config file, `update`
exits with code 1, logs the message telling the user to run
`apploc init` (the message literally ends in "apploc init"), performs no
network fetch and writes no file. -/
theorem c6_update_missing_config (w : World)
    (hf : findConfig w.fsExists w.cwd = none) :
    cliRun w (some "update")
      = ⟨1, some (logErrorOutput (missingConfigMsg (dirToString w.cwd))),
          none, false, false, false⟩
    ∧ ∃ s, missingConfigMsg (dirToString w.cwd) = s ++ "apploc init" :=
  ⟨cliRun_update_missing w hf, ⟨_, rfl⟩⟩

/-- The C6 theorem applied to a concrete world with an empty
filesystem. -/
theorem c6_update_missing_config_witness :
    cliRun envC6 (some "update")
      = ⟨1, some (logErrorOutput (missingConfigMsg (dirToString ["home"]))),
          none, false, false, false⟩ :=
  (c6_update_missing_config envC6 (by simp [findConfig, parent, envC6])).1

/-- C10: if the update path fails anywhere before the final write —
config parse, network, envelope rejection, or remote-data parse — the
localization file is neither created nor modified in that run, the exit
code is 1, and the error is logged. -/
theorem c10_no_write_on_error (w : World) (p : List String) (e : String)
    (hf : findConfig w.fsExists w.cwd = some p)
    (he : updateError w = some e) :
    (cliRun w (some "update")).locWritten = none
    ∧ (cliRun w (some "update")).exitCode = 1
    ∧ (cliRun w (some "update")).stderr = some (logErrorOutput e) := by
  rw [cliRun_update_found w p hf]
  exact runUpdate_error w e he

/-- The C10 theorem applied to a concrete world whose config file fails
to parse: nothing is written. -/
theorem c10_no_write_on_error_witness :
    (cliRun envC10 (some "update")).locWritten = none :=
  (c10_no_write_on_error envC10 [configFileName] "boom"
    (by rw [findConfig]; simp [envC10]) rfl).1

end Apploc
